import Mathlib

/-!
Verification of the containerd-hvf shim core (pkg/hvf: vm.go, shim.go,
manager.go, domain rendering and event topic resolution) against its
natural-language specification.

Shallow-embedding conventions:
* Filesystem paths are modelled as lists of components (`Path`); Go's
  `filepath.Join` is list append.
* Calls to the libvirt engine are modelled by oracle arguments: each
  engine call site receives the engine's answer as an explicit input
  (`LvResult`, `GetStateResult`).
* Go `nil`-pointer dereference panics and index-out-of-range panics are
  modelled by `Option`/`none` results (`none` = the Go program crashes).
* The local filesystem visible to the shim (stat results, qemu-img
  output, the per-domain pid file) is an explicit oracle record `FS`.
* Go's `uint32(x)` conversion of an `int` is `x % 2^32` on `Int`,
  taken non-negative.
-/

namespace Hvf

/-- Filesystem paths, as lists of components; `filepath.Join` is append. -/
abbrev Path := List String

/-- vm.go: `defaultRootImagePath = "disk"`. -/
def defaultRootImagePath : String := "disk"

/-- vm.go: `defaultRootImageFileName = "boot.qcow2"`. -/
def defaultRootImageFileName : String := "boot.qcow2"

/-- vm.go: `defaultCloudInitImageFileName = "cloudinit.iso"`. -/
def defaultCloudInitImageFileName : String := "cloudinit.iso"

/-- Whether the first character list starts the second. -/
def startsWith : List Char → List Char → Bool
  | [], _ => true
  | _ :: _, [] => false
  | a :: as, b :: bs => a == b && startsWith as bs

/-- Whether `sub` occurs contiguously inside `s`. -/
def containsSubList (sub : List Char) : List Char → Bool
  | [] => startsWith sub []
  | c :: cs => startsWith sub (c :: cs) || containsSubList sub cs

/-- Go's `strings.Contains(s, sub)` test: contiguous substring
containment, on the underlying character lists. -/
def containsSub (sub s : String) : Bool := containsSubList sub.data s.data

/-- Result of a libvirt call that returns only an error
(DomainCreate, DomainDestroy, DomainUndefineFlags, DomainDefineXML).
`notFound` models the structured `libvirt.IsNotFound(err)` test;
`msg` is the error text inspected with `strings.Contains`. -/
inductive LvResult where
  | ok
  | err (msg : String) (notFound : Bool)
  deriving DecidableEq, Repr

/-- Result of `client.DomainGetState`: a numeric virDomainState on
success, otherwise an error message (vm.go only inspects the message
text of this error, with `strings.Contains(err.Error(), "not found")`). -/
inductive GetStateResult where
  | ok (state : Nat)
  | err (msg : String)
  deriving DecidableEq, Repr

/-- containerd process status values used by the shim. -/
inductive ProcessStatus where
  | created
  | running
  | stopped
  | paused
  | pausing
  | unknown
  deriving DecidableEq, Repr

/-- VM.Status (vm.go 312-384) as the pure reconciliation function of the
four signals it reads: the started flag, the exited flag, the resolved
process id, and the live `DomainGetState` answer.  The second component
is the error value returned alongside the status (`none` = nil). -/
def statusOf (started exited : Bool) (pid : Nat) (engine : GetStateResult) :
    ProcessStatus × Option String :=
  if started = false then (.created, none)
  else if pid == 0 then
    if exited then (.stopped, none) else (.unknown, none)
  else
    match engine with
    | .err msg =>
      if containsSub "not found" msg then
        if exited then (.stopped, none) else (.unknown, none)
      else (.unknown, some msg)
    | .ok s =>
      if s == 0 then (.created, none)
      else if s == 1 then (.running, none)
      else if s == 3 || s == 7 then (.paused, none)
      else if s == 4 then (.pausing, none)
      else if s == 5 || s == 6 then (.stopped, none)
      else (.unknown, none)

/-- The spec's priority table of section 4.3, written from the spec's
words (never started; started with no resolvable pid; started with a
pid and each enumerated engine state; query failure with/without "not
found").  `none` marks the combinations the table does not enumerate
(engine states 2 and above 7). -/
def specStatusTable (started exited : Bool) (pid : Nat) (engine : GetStateResult) :
    Option (ProcessStatus × Option String) :=
  if started = false then some (.created, none)
  else if pid == 0 then
    some (if exited then (.stopped, none) else (.unknown, none))
  else
    match engine with
    | .err msg =>
      if containsSub "not found" msg then
        some (if exited then (.stopped, none) else (.unknown, none))
      else some (.unknown, some msg)
    | .ok s =>
      if s == 0 then some (.created, none)
      else if s == 1 then some (.running, none)
      else if s == 3 || s == 7 then some (.paused, none)
      else if s == 4 then some (.pausing, none)
      else if s == 5 || s == 6 then some (.stopped, none)
      else none

/-- C1: the VM status query is a pure function of its four input
signals and, on every combination the spec's section 4.3 priority
table enumerates, returns exactly the state of that table: never
started yields Created; started with no resolvable process id yields
Stopped if locally marked exited, else Unknown; started with a
resolvable process id maps the engine state no-state/running/paused or
suspended/shutting-down/shut-off or crashed to
Created/Running/Paused/Pausing/Stopped; a state query failing with
"not found" yields Stopped if locally marked exited, else Unknown; any
other query failure yields Unknown with the error surfaced. -/
theorem status_matches_spec_table
    (started exited : Bool) (pid : Nat) (engine : GetStateResult)
    (r : ProcessStatus × Option String)
    (h : specStatusTable started exited pid engine = some r) :
    statusOf started exited pid engine = r := by
  cases engine with
  | err msg =>
    simp only [specStatusTable, statusOf] at h ⊢
    split_ifs at h ⊢ <;> simp_all
  | ok s =>
    simp only [specStatusTable, statusOf] at h ⊢
    split_ifs at h ⊢ <;> simp_all

/-- Witness for C1 at a concrete input: a started, non-exited VM with
pid 1 whose engine reports state 1 is Running. -/
theorem status_matches_spec_table_witness :
    statusOf true false 1 (.ok 1) = (.running, none) :=
  status_matches_spec_table true false 1 (.ok 1) (.running, none) (by decide)

/-- One disk entry of the rendered libvirt domain (RenderDomain). -/
structure DomainDisk where
  device : String
  driverName : String
  driverType : String
  driverCache : String
  sourceFile : Path
  targetDev : String
  targetBus : String
  readOnly : Bool
  deriving DecidableEq, Repr

/-- The fields of `libvirtxml.Domain` that RenderDomain populates. -/
structure Domain where
  typ : String
  name : String
  uuid : String
  memoryValue : Nat
  memoryUnit : String
  currentMemoryValue : Nat
  currentMemoryUnit : String
  cpuMode : String
  cpuMatch : String
  cpuModel : String
  vcpu : Nat
  firmware : String
  osArch : String
  osMachine : String
  osType : String
  bootDevs : List String
  featureACPI : Bool
  featureAPIC : Bool
  clockOffset : String
  onPoweroff : String
  onReboot : String
  onCrash : String
  emulator : String
  controllers : List (String × String)
  disks : List DomainDisk
  inputs : List (String × String)
  consoleTargetType : String
  consoleSourcePty : Bool
  vncAutoPort : String
  vncListen : String
  vncListenerAddrs : List String
  videoModelType : String
  videoHeads : Nat
  videoPrimary : String
  memBalloonModel : String
  qemuArgs : List String
  deriving DecidableEq, Repr

/-- RenderDomain (domain rendering file, lines 129-274).  In the Go
source the UUID field is filled by `uuid.New().String()`, a fresh
random identifier drawn on every invocation; that randomness source is
made explicit here as the extra argument `u`. -/
def renderDomain (id bundle u : String) : Domain where
  typ := "hvf"
  name := id
  uuid := u
  memoryValue := 2
  memoryUnit := "GiB"
  currentMemoryValue := 2
  currentMemoryUnit := "GiB"
  cpuMode := "custom"
  cpuMatch := "exact"
  cpuModel := "host"
  vcpu := 8
  firmware := "efi"
  osArch := "aarch64"
  osMachine := "virt"
  osType := "hvm"
  bootDevs := ["hd"]
  featureACPI := true
  featureAPIC := true
  clockOffset := "localtime"
  onPoweroff := "destroy"
  onReboot := "restart"
  onCrash := "restart"
  emulator := "/opt/homebrew/bin/qemu-system-aarch64"
  controllers := [("usb", "qemu-xhci")]
  disks :=
    [{ device := "cdrom"
       driverName := "qemu"
       driverType := "raw"
       driverCache := "none"
       sourceFile := [bundle, "rootfs", defaultRootImagePath, defaultCloudInitImageFileName]
       targetDev := "vda"
       targetBus := "sata"
       readOnly := true },
     { device := "disk"
       driverName := "qemu"
       driverType := "qcow2"
       driverCache := ""
       sourceFile := [bundle, "rootfs", defaultRootImagePath, defaultRootImageFileName]
       targetDev := "vdb"
       targetBus := "virtio"
       readOnly := false }]
  inputs := [("tablet", "usb"), ("keyboard", "usb")]
  consoleTargetType := "serial"
  consoleSourcePty := true
  vncAutoPort := "yes"
  vncListen := "0.0.0.0"
  vncListenerAddrs := ["0.0.0.0"]
  videoModelType := "virtio"
  videoHeads := 1
  videoPrimary := "yes"
  memBalloonModel := "virtio"
  qemuArgs := ["-netdev", "vmnet-shared,id=net0", "-device", "virtio-net-device,netdev=net0"]

/-- C7 counterexample: the descriptor builder is not a function of
(task id, bundle path) alone — the Go code draws a fresh random UUID
with `uuid.New()` on every call, so two invocations with the same
inputs produce descriptors that differ in the UUID field. -/
theorem renderDomain_not_input_deterministic :
    renderDomain "vm1" "/bundle" "11111111-1111-1111-1111-111111111111" ≠
      renderDomain "vm1" "/bundle" "22222222-2222-2222-2222-222222222222" := by
  decide

/-- C7 amended: except for the freshly generated UUID, the descriptor
builder is deterministic in (task id, bundle path), and the descriptor
always carries the fixed policy values: 2 GiB memory, 8 virtual CPUs,
UEFI firmware, a read-only raw CD-ROM at the seed-configuration image,
a read-write qcow2 primary disk at the boot image, a serial console, a
VNC display listening on all interfaces, and a virtio network device on
the host's shared virtual network passed as raw QEMU arguments. -/
theorem renderDomain_fixed_policy (id bundle u1 u2 : String) :
    ({ renderDomain id bundle u1 with uuid := "" } =
       { renderDomain id bundle u2 with uuid := "" }) ∧
    (renderDomain id bundle u1).memoryValue = 2 ∧
    (renderDomain id bundle u1).memoryUnit = "GiB" ∧
    (renderDomain id bundle u1).vcpu = 8 ∧
    (renderDomain id bundle u1).firmware = "efi" ∧
    (renderDomain id bundle u1).disks =
      [{ device := "cdrom"
         driverName := "qemu"
         driverType := "raw"
         driverCache := "none"
         sourceFile := [bundle, "rootfs", "disk", "cloudinit.iso"]
         targetDev := "vda"
         targetBus := "sata"
         readOnly := true },
       { device := "disk"
         driverName := "qemu"
         driverType := "qcow2"
         driverCache := ""
         sourceFile := [bundle, "rootfs", "disk", "boot.qcow2"]
         targetDev := "vdb"
         targetBus := "virtio"
         readOnly := false }] ∧
    (renderDomain id bundle u1).consoleTargetType = "serial" ∧
    (renderDomain id bundle u1).vncListen = "0.0.0.0" ∧
    (renderDomain id bundle u1).vncListenerAddrs = ["0.0.0.0"] ∧
    (renderDomain id bundle u1).qemuArgs =
      ["-netdev", "vmnet-shared,id=net0", "-device", "virtio-net-device,netdev=net0"] :=
  ⟨rfl, rfl, rfl, rfl, rfl, rfl, rfl, rfl, rfl, rfl⟩

/-- One declared mount entry (types.Mount): its type string and its
source path. -/
structure Mount where
  type : String
  source : Path
  deriving DecidableEq, Repr

/-- The shim-visible local filesystem and toolchain, as an oracle:
`statOk p` is whether `os.Stat p` succeeds; `qemuFormat p` is the
`format` field reported by `qemu-img info p` (`none` = the command
fails, `some ""` = the JSON carries no format field); `symlinkOk` is
whether `os.Symlink` succeeds; `pidFile name` is the content of the
per-domain libvirt pid file for domain `name` (`none` = `os.Stat`
fails on it). -/
structure FS where
  statOk : Path → Bool
  qemuFormat : Path → Option String
  symlinkOk : Bool
  pidFile : String → Option String

/-- qemu-img image metadata consumed by setupRootFS. -/
structure QemuImageInfo where
  format : String
  deriving DecidableEq, Repr

/-- getImageInfo (vm.go 171-188): runs `qemu-img info`; on success a
missing format field is defaulted to "raw". -/
def getImageInfo (q : Path → Option String) (path : Path) : Option QemuImageInfo :=
  match q path with
  | none => none
  | some fmt => some { format := if fmt == "" then "raw" else fmt }

/-- The loop of setupRootFS (vm.go 141-149): fold over the declared
mounts, and for each bind-type mount recompute (imagePath, bootImage,
cloudinitImage) from its source — so the last bind mount wins.  The
initial value is the Go zero value ("" for each variable, here the
empty path). -/
def setupRootFSVars (mounts : List Mount) : Path × Path × Path :=
  mounts.foldl
    (fun acc m =>
      if m.type == "bind" then
        let ip := m.source ++ [defaultRootImagePath]
        (ip, ip ++ [defaultRootImageFileName], ip ++ [defaultCloudInitImageFileName])
      else acc)
    ([], [], [])

/-- The last bind-type mount's source, if any. -/
def lastBindSource (mounts : List Mount) : Option Path :=
  mounts.foldl (fun acc m => if m.type == "bind" then some m.source else acc) none

/-- Failure modes of setupRootFS. `invalidImage` wraps ErrInvalidImage;
`statFailed` is the `os.Stat` error returned verbatim (the file is
absent); `qemuInfoFailed` is a getImageInfo failure; `symlinkFailed` is
an `os.Symlink` error. -/
inductive SetupErr where
  | invalidImage (msg : String)
  | statFailed (p : Path)
  | qemuInfoFailed (p : Path)
  | symlinkFailed
  deriving DecidableEq, Repr

/-- The one symbolic link setupRootFS creates on success. -/
structure SymlinkCreated where
  linkPath : Path
  target : Path
  deriving DecidableEq, Repr

/-- setupRootFS (vm.go 137-169): select the last bind mount, require
the boot image and the seed-configuration image, require the boot
image's reported format to be qcow2, then create a single symlink from
the bundle's `rootfs/disk` subpath to the validated image directory. -/
def setupRootFS (mounts : List Mount) (bundle : String) (fs : FS) :
    Except SetupErr SymlinkCreated :=
  let vars := setupRootFSVars mounts
  let imagePath := vars.1
  let bootImage := vars.2.1
  let cloudinitImage := vars.2.2
  if bootImage == ([] : Path) then .error (.invalidImage "no bind type mounts")
  else if fs.statOk bootImage = false then .error (.statFailed bootImage)
  else
    match getImageInfo fs.qemuFormat bootImage with
    | none => .error (.qemuInfoFailed bootImage)
    | some info =>
      if info.format != "qcow2" then
        .error (.invalidImage "is not a qcow2 image")
      else if fs.statOk cloudinitImage = false then .error (.statFailed cloudinitImage)
      else if fs.symlinkOk then
        .ok { linkPath := [bundle, "rootfs", defaultRootImagePath], target := imagePath }
      else .error .symlinkFailed

/-- Rendering of a candidate last-bind source into the three path
variables of setupRootFS (Go zero values when there is none). -/
def renderVars (accO : Option Path) : Path × Path × Path :=
  match accO with
  | none => (([] : Path), ([] : Path), ([] : Path))
  | some src =>
    let ip := src ++ [defaultRootImagePath]
    (ip, ip ++ [defaultRootImageFileName], ip ++ [defaultCloudInitImageFileName])

/-- The fold of setupRootFSVars computes exactly the triple derived
from the last bind mount's source (and the Go zero values when no bind
mount exists). -/
theorem setupRootFSVars_eq_lastBind (mounts : List Mount) :
    setupRootFSVars mounts = renderVars (lastBindSource mounts) := by
  have key : ∀ (ms : List Mount) (accO : Option Path),
      ms.foldl
          (fun acc m =>
            if m.type == "bind" then
              let ip := m.source ++ [defaultRootImagePath]
              (ip, ip ++ [defaultRootImageFileName], ip ++ [defaultCloudInitImageFileName])
            else acc)
          (renderVars accO) =
        renderVars
          (ms.foldl (fun acc m => if m.type == "bind" then some m.source else acc) accO) := by
    intro ms
    induction ms with
    | nil => intro accO; rfl
    | cons m rest ih =>
      intro accO
      simp only [List.foldl_cons]
      by_cases hb : (m.type == "bind") = true
      · rw [if_pos hb, if_pos hb]
        exact ih (some m.source)
      · rw [if_neg hb, if_neg hb]
        exact ih accO
  exact key mounts none

/-- With no bind-type mount, the last-bind fold yields nothing. -/
theorem lastBindSource_eq_none (mounts : List Mount)
    (h : ∀ m ∈ mounts, m.type ≠ "bind") : lastBindSource mounts = none := by
  have aux : ∀ (ms : List Mount) (acc : Option Path),
      (∀ m ∈ ms, m.type ≠ "bind") →
      ms.foldl (fun a m => if m.type == "bind" then some m.source else a) acc = acc := by
    intro ms
    induction ms with
    | nil => intro acc _; rfl
    | cons m rest ih =>
      intro acc hh
      simp only [List.foldl_cons]
      have hm : ¬((m.type == "bind") = true) := by
        simpa using hh m (by simp)
      rw [if_neg hm]
      exact ih acc (fun x hx => hh x (by simp [hx]))
  exact aux mounts none h

/-- C4: image validation derives the root-image directory from the
last bind-type mount entry; with no bind mount it fails with
InvalidImage; with the boot image or the seed-configuration image
absent it fails with the stat (not-found) error; with a reported boot
image format other than qcow2 — including an empty report, which is
defaulted to "raw" — it fails with InvalidImage; and on success it
creates exactly one symbolic link from the bundle's rootfs subpath to
the validated directory. -/
theorem setupRootFS_validation (mounts : List Mount) (bundle : String) (fs : FS) :
    ((∀ m ∈ mounts, m.type ≠ "bind") →
      setupRootFS mounts bundle fs = .error (.invalidImage "no bind type mounts")) ∧
    (∀ src, lastBindSource mounts = some src →
      let imagePath := src ++ [defaultRootImagePath]
      let bootImage := imagePath ++ [defaultRootImageFileName]
      let cloudinitImage := imagePath ++ [defaultCloudInitImageFileName]
      (fs.statOk bootImage = false →
        setupRootFS mounts bundle fs = .error (.statFailed bootImage)) ∧
      (∀ fmt, fs.statOk bootImage = true → fs.qemuFormat bootImage = some fmt →
        (if fmt == "" then "raw" else fmt) ≠ "qcow2" →
        setupRootFS mounts bundle fs = .error (.invalidImage "is not a qcow2 image")) ∧
      (fs.statOk bootImage = true → fs.qemuFormat bootImage = some "qcow2" →
        fs.statOk cloudinitImage = false →
        setupRootFS mounts bundle fs = .error (.statFailed cloudinitImage)) ∧
      (fs.statOk bootImage = true → fs.qemuFormat bootImage = some "qcow2" →
        fs.statOk cloudinitImage = true → fs.symlinkOk = true →
        setupRootFS mounts bundle fs =
          .ok { linkPath := [bundle, "rootfs", defaultRootImagePath],
                target := imagePath })) := by
  have hvars := setupRootFSVars_eq_lastBind mounts
  constructor
  · intro hnone
    unfold setupRootFS
    rw [hvars, lastBindSource_eq_none mounts hnone]
    rfl
  · intro src hlast
    rw [hlast] at hvars
    simp only
    refine ⟨?_, ?_, ?_, ?_⟩
    · intro hstat
      unfold setupRootFS
      rw [hvars]
      simp_all [renderVars]
    · intro fmt hstat hq hfmt
      unfold setupRootFS
      rw [hvars]
      simp_all [renderVars, getImageInfo]
    · intro hstat hq hseed
      unfold setupRootFS
      rw [hvars]
      simp_all [renderVars, getImageInfo]
    · intro hstat hq hseed hsym
      unfold setupRootFS
      rw [hvars]
      simp_all [renderVars, getImageInfo]

/-- Witness for C4 at concrete inputs: with a single bind mount, both
image files present, a qcow2 boot image and a working symlink call,
validation succeeds and yields the single rootfs symlink; and with no
bind mount it fails with InvalidImage. -/
theorem setupRootFS_validation_witness :
    setupRootFS [{ type := "bind", source := ["snap", "4"] }] "bdl"
        { statOk := fun _ => true, qemuFormat := fun _ => some "qcow2",
          symlinkOk := true, pidFile := fun _ => none } =
      .ok { linkPath := ["bdl", "rootfs", "disk"], target := ["snap", "4", "disk"] } ∧
    setupRootFS [{ type := "other", source := ["x"] }] "bdl"
        { statOk := fun _ => true, qemuFormat := fun _ => some "qcow2",
          symlinkOk := true, pidFile := fun _ => none } =
      .error (.invalidImage "no bind type mounts") := by
  constructor
  · exact ((setupRootFS_validation [{ type := "bind", source := ["snap", "4"] }] "bdl"
      { statOk := fun _ => true, qemuFormat := fun _ => some "qcow2",
        symlinkOk := true, pidFile := fun _ => none }).2 ["snap", "4"] rfl).2.2.2
      rfl rfl rfl rfl
  · exact (setupRootFS_validation [{ type := "other", source := ["x"] }] "bdl"
      { statOk := fun _ => true, qemuFormat := fun _ => some "qcow2",
        symlinkOk := true, pidFile := fun _ => none }).1 (by decide)

/-- Go's `uint32(x)` conversion of a (64-bit) `int`. -/
def intToUInt32 (i : Int) : Nat := (i % 4294967296).toNat

/-- Decimal digit run parser backing the Atoi model: `none` when a
non-digit appears or when the run is empty. -/
def digitsAux : List Char → Nat → Option Nat
  | [], acc => some acc
  | c :: cs, acc =>
    if c.isDigit then digitsAux cs (acc * 10 + (c.toNat - 48)) else none

/-- Decimal digit run: at least one digit, all digits. -/
def digitsVal (l : List Char) : Option Nat :=
  match l with
  | [] => none
  | _ => digitsAux l 0

/-- Go's `strconv.Atoi`: an optional sign followed by at least one
decimal digit, nothing else (overflow is not modelled). -/
def goAtoi (s : String) : Option Int :=
  match s.data with
  | '-' :: rest => (digitsVal rest).map (fun n => -(n : Int))
  | '+' :: rest => (digitsVal rest).map (fun n => (n : Int))
  | l => (digitsVal l).map (fun n => (n : Int))

/-- The mutable fields of the VM record (vm.go 33-54), plus the
immutable identity/bundle/mount/environment data set by NewVM.  The
engine connection handle and defined-domain handle carry no observable
data in this model beyond `domainDefined`; `domain` is the rendered
descriptor pointer, `none` until Init runs (a Go nil pointer).
`cancelled` is whether the VM's context-cancellation signal has been
raised. -/
structure VMState where
  id : String
  bundle : String
  pid : Int
  started : Bool
  exited : Bool
  exitedAt : Nat
  terminal : Bool
  cancelled : Bool
  env : List (String × String)
  mounts : List Mount
  domain : Option Domain
  domainDefined : Bool
  deriving DecidableEq, Repr

/-- The VM record as NewVM builds it (vm.go 78-89): zero pid, not
started, not exited, domain pointer nil. -/
def newVMState (id bundle : String) (env : List (String × String))
    (mounts : List Mount) (terminal : Bool) : VMState where
  id := id
  bundle := bundle
  pid := 0
  started := false
  exited := false
  exitedAt := 0
  terminal := terminal
  cancelled := false
  env := env
  mounts := mounts
  domain := none
  domainDefined := false

/-- VM.Pid (vm.go 194-217): 0 when the domain name is empty; else the
cached pid if non-zero; else read and parse the per-domain pid file,
caching the parsed value.  `none` models the Go panic when `v.domain`
is a nil pointer (`v.domain.Name` dereferences it).  The numeric parse
of the file content models `strconv.Atoi`. -/
def VMState.pidOp (v : VMState) (fs : FS) : Option (Nat × VMState) :=
  match v.domain with
  | none => none
  | some d =>
    if d.name == "" then some (0, v)
    else if v.pid != 0 then some (intToUInt32 v.pid, v)
    else
      match fs.pidFile d.name with
      | none => some (0, v)
      | some content =>
        if content == "" then some (0, v)
        else
          match goAtoi content with
          | none => some (0, v)
          | some pid => some (intToUInt32 pid, { v with pid := pid })

/-- VM.Start (vm.go 219-226): instantiate the defined domain; on
engine failure return a wrapped error naming the domain (`none` models
the nil-pointer panic when the error wrap reads `v.domain.Name` on an
uninitialized VM); on success mark the VM started. -/
def VMState.start (v : VMState) (res : LvResult) : Option (VMState × Option String) :=
  match res with
  | .ok => some ({ v with started := true }, none)
  | .err msg _ =>
    match v.domain with
    | none => none
    | some d => some (v, some ("failed to start VM " ++ d.name ++ ": " ++ msg))

/-- VM.Kill (vm.go 242-261): destroy the domain.  A destroy error that
is structurally not-found or whose text contains "is not running" is
treated as already-successful termination.  On confirmed termination
(either path) the VM records the exit time, marks stdio terminal, sets
the exited flag, and raises its cancellation signal.  Any other error
is wrapped with the domain name (`none` models the nil-pointer panic
when `v.domain` is nil there).  The signal argument is accepted but
unused, as in the Go code. -/
def VMState.kill (v : VMState) (now : Nat) (signal : Int) (res : LvResult) :
    Option (VMState × Option String) :=
  match res with
  | .ok =>
    some ({ v with terminal := true, exitedAt := now, exited := true, cancelled := true }, none)
  | .err msg notFound =>
    if notFound || containsSub "is not running" msg then
      some ({ v with terminal := true, exitedAt := now, exited := true, cancelled := true }, none)
    else
      match v.domain with
      | none => none
      | some d => some (v, some ("failed to stop VM " ++ d.name ++ ": " ++ msg))

/-- The exit-status record containerd.NewExitStatus builds: code, exit
time, and the carried process error. -/
structure ExitStatus where
  exitCode : Nat
  exitedAt : Nat
  procErr : Option String
  deriving DecidableEq, Repr

/-- VM.Delete (vm.go 228-240): undefine the domain; a not-found
undefine error counts as success (exit status 0); any other undefine
error yields exit status 1 carrying that error; in both cases the
returned Go error value is nil.  The deferred unlink of the root-image
symlink may fail (`unlinkFails`), but that failure is only logged and
never reaches the result. -/
def VMState.delete (v : VMState) (undef : LvResult) (unlinkFails : Bool) :
    ExitStatus × Option String :=
  match undef with
  | .ok => ({ exitCode := 0, exitedAt := v.exitedAt, procErr := none }, none)
  | .err msg notFound =>
    if notFound then ({ exitCode := 0, exitedAt := v.exitedAt, procErr := none }, none)
    else ({ exitCode := 1, exitedAt := v.exitedAt, procErr := some msg }, none)

/-- VM.Status (vm.go 312-384) with its state effect: when the VM is
started it resolves the pid through VM.Pid (which may cache), then
reconciles through the pure `statusOf` table.  `none` models the panic
propagated out of VM.Pid. -/
def VMState.statusOp (v : VMState) (fs : FS) (engine : GetStateResult) :
    Option (VMState × (ProcessStatus × Option String)) :=
  if v.started = false then some (v, (.created, none))
  else
    match v.pidOp fs with
    | none => none
    | some (pid, v2) => some (v2, statusOf true v2.exited pid engine)

/-- Failure modes of VM.Init. -/
inductive InitErr where
  | rootfs (e : SetupErr)
  | define (msg : String)
  deriving DecidableEq, Repr

/-- VM.Init (vm.go 100-116): set up the root filesystem, render the
domain descriptor (storing it on the VM before defining it — so the
descriptor pointer is set even when the engine define fails), then
define the domain with the engine.  The XML marshalling step cannot
fail in this model.  `u` is the fresh UUID drawn inside RenderDomain;
`defineRes` is the engine's answer to DomainDefineXML. -/
def VMState.init (v : VMState) (fs : FS) (u : String) (defineRes : LvResult) :
    VMState × Option InitErr :=
  match setupRootFS v.mounts v.bundle fs with
  | .error e => (v, some (.rootfs e))
  | .ok _ =>
    let v2 := { v with domain := some (renderDomain v.id v.bundle u) }
    match defineRes with
    | .ok => ({ v2 with domainDefined := true }, none)
    | .err msg _ => (v2, some (.define msg))

/-- C5: VM.Delete never returns an error as its Go error value; it
returns exit status 0 when the undefine succeeds or fails not-found,
exit status 1 carrying the undefine error otherwise; and an unlink
failure of the root-image symlink never influences the result. -/
theorem vm_delete_never_errors (v : VMState) (undef : LvResult) (uf : Bool) :
    ((v.delete undef uf).2 = none) ∧
    (undef = .ok → (v.delete undef uf).1.exitCode = 0) ∧
    (∀ msg, undef = .err msg true → (v.delete undef uf).1.exitCode = 0) ∧
    (∀ msg, undef = .err msg false →
      (v.delete undef uf).1.exitCode = 1 ∧ (v.delete undef uf).1.procErr = some msg) ∧
    (∀ uf2, v.delete undef uf = v.delete undef uf2) := by
  refine ⟨?_, ?_, ?_, ?_, ?_⟩
  · cases undef with
    | ok => rfl
    | err msg nf => cases nf <;> rfl
  · intro h; subst h; rfl
  · intro msg h; subst h; rfl
  · intro msg h; subst h; exact ⟨rfl, rfl⟩
  · intro _; rfl

/-- Witness for C5 at a concrete input: an undefine failure that is
not not-found yields a nil error value and exit status 1 carrying the
message. -/
theorem vm_delete_never_errors_witness :
    ((newVMState "w5" "/b" [] [] false).delete (.err "boom" false) true).2 = none ∧
    ((newVMState "w5" "/b" [] [] false).delete (.err "boom" false) true).1.exitCode = 1 ∧
    ((newVMState "w5" "/b" [] [] false).delete (.err "boom" false) true).1.procErr =
      some "boom" := by
  have h := vm_delete_never_errors (newVMState "w5" "/b" [] [] false) (.err "boom" false) true
  exact ⟨h.1, (h.2.2.2.1 "boom" rfl).1, (h.2.2.2.1 "boom" rfl).2⟩

/-- Lifecycle states of the libvirt domain on the engine side, as far
as DomainDestroy semantics observes them: the domain record may not
exist, may exist without a running instance, or may be running. -/
inductive EngineDomain where
  | undefinedDom
  | definedDom
  | runningDom
  deriving DecidableEq, Repr

/-- Engine model of `DomainDestroy` (libvirt semantics): destroying a
running domain succeeds and leaves the definition behind; destroying a
defined but not running domain fails with an "is not running"
operation error; destroying an unknown domain fails not-found. -/
def engineDestroy : EngineDomain → LvResult × EngineDomain
  | .runningDom => (.ok, .definedDom)
  | .definedDom =>
    (.err "Requested operation is not valid: domain is not running" false, .definedDom)
  | .undefinedDom => (.err "Domain not found" true, .undefinedDom)

/-- VM.Kill composed with the engine model of DomainDestroy: one kill
call against the combined (VM, engine domain) state. -/
def killSys (v : VMState) (e : EngineDomain) (now : Nat) (signal : Int) :
    Option ((VMState × EngineDomain) × Option String) :=
  let res := engineDestroy e
  (v.kill now signal res.1).map (fun p => ((p.1, res.2), p.2))

/-- C2: Kill is idempotent.  First, when the engine's destroy reports
not-found or "is not running", Kill returns success (a nil error) and
still records the exit time, sets the exited flag, and raises the
cancellation signal.  Second, against the engine's destroy semantics,
any Kill that succeeded leaves the domain in a state where a second
Kill — with any signal value — again succeeds, with the exited flag
and cancellation signal raised. -/
theorem kill_idempotent :
    (∀ (v : VMState) (now : Nat) (signal : Int) (msg : String) (nf : Bool),
        (nf || containsSub "is not running" msg) = true →
        v.kill now signal (.err msg nf) =
          some ({ v with terminal := true, exitedAt := now,
                         exited := true, cancelled := true }, none)) ∧
    (∀ (v : VMState) (e : EngineDomain) (now : Nat) (signal : Int)
        (p : VMState × EngineDomain),
        killSys v e now signal = some (p, none) →
        ∀ (now2 : Nat) (signal2 : Int),
          ∃ q, killSys p.1 p.2 now2 signal2 = some (q, none) ∧
            q.1.exited = true ∧ q.1.cancelled = true) := by
  have hrun : containsSub "is not running"
      "Requested operation is not valid: domain is not running" = true := by decide
  constructor
  · intro v now signal msg nf h
    simp only [VMState.kill, h, if_true]
  · intro v e now signal p hp now2 signal2
    have hkilled : ∀ (w : VMState) (n : Nat) (sg : Int),
        ∃ q, killSys w .definedDom n sg = some (q, none) ∧
          q.1.exited = true ∧ q.1.cancelled = true := by
      intro w n sg
      refine ⟨({ w with terminal := true, exitedAt := n, exited := true, cancelled := true }, .definedDom), ?_, rfl, rfl⟩
      simp [killSys, engineDestroy, VMState.kill, hrun]
    have hundef : ∀ (w : VMState) (n : Nat) (sg : Int),
        ∃ q, killSys w .undefinedDom n sg = some (q, none) ∧
          q.1.exited = true ∧ q.1.cancelled = true := by
      intro w n sg
      refine ⟨({ w with terminal := true, exitedAt := n, exited := true, cancelled := true }, .undefinedDom), ?_, rfl, rfl⟩
      simp [killSys, engineDestroy, VMState.kill]
    cases e with
    | runningDom =>
      have : p.2 = .definedDom := by
        simp only [killSys, engineDestroy, VMState.kill, Option.map] at hp
        cases hp
        rfl
      rw [this]
      exact hkilled p.1 now2 signal2
    | definedDom =>
      have : p.2 = .definedDom := by
        simp only [killSys, engineDestroy, VMState.kill, hrun, Option.map] at hp
        cases hp
        rfl
      rw [this]
      exact hkilled p.1 now2 signal2
    | undefinedDom =>
      have : p.2 = .undefinedDom := by
        simp only [killSys, engineDestroy, VMState.kill, Option.map] at hp
        cases hp
        rfl
      rw [this]
      exact hundef p.1 now2 signal2

/-- Witness for C2 at a concrete input: a destroy answered "domain is
not running" still succeeds and marks the VM exited with its
cancellation signal raised; and after a successful kill of a running
domain, a second kill with another signal succeeds again. -/
theorem kill_idempotent_witness :
    ((newVMState "w2" "/b" [] [] false).kill 7 15
        (.err "domain is not running" false) =
      some ({ newVMState "w2" "/b" [] [] false with
              terminal := true, exitedAt := 7, exited := true, cancelled := true },
            none)) ∧
    (∃ q, killSys { newVMState "w2" "/b" [] [] false with
              terminal := true, exitedAt := 7, exited := true, cancelled := true }
            .definedDom 8 9 = some (q, none) ∧
          q.1.exited = true ∧ q.1.cancelled = true) := by
  constructor
  · exact kill_idempotent.1 (newVMState "w2" "/b" [] [] false) 7 15
      "domain is not running" false (by decide)
  · exact kill_idempotent.2 (newVMState "w2" "/b" [] [] false) .runningDom 7 15
      ({ newVMState "w2" "/b" [] [] false with
         terminal := true, exitedAt := 7, exited := true, cancelled := true },
       .definedDom) (by decide) 8 9

/-- One lifecycle operation against a VM, carrying the oracle answers
(filesystem view, engine answers, clock) its Go counterpart consumes.
`waitOp` carries the sequence of status observations its polling
goroutine performs. -/
inductive VMOp where
  | initOp (fs : FS) (u : String) (defineRes : LvResult)
  | startOp (res : LvResult)
  | killOp (now : Nat) (signal : Int) (res : LvResult)
  | statusQ (fs : FS) (engine : GetStateResult)
  | pidQ (fs : FS)
  | deleteOp (undef : LvResult) (unlinkFails : Bool)
  | waitOp (obs : List (FS × GetStateResult))

/-- The VM-state effect of VM.Wait (vm.go 263-295): its polling
goroutine repeatedly calls VM.Status; each observation may cache the
pid; a panic in the goroutine crashes the process. -/
def VMState.waitSteps (v : VMState) : List (FS × GetStateResult) → Option VMState
  | [] => some v
  | o :: rest =>
    match v.statusOp o.1 o.2 with
    | none => none
    | some (v2, _) => v2.waitSteps rest

/-- The VM-state effect of one lifecycle operation; `none` = the Go
code panics.  VM.Delete mutates no VM field (it only talks to the
engine and the filesystem), so `deleteOp` leaves the state unchanged. -/
def VMState.applyOp (v : VMState) : VMOp → Option VMState
  | .initOp fs u defineRes => some (v.init fs u defineRes).1
  | .startOp res => (v.start res).map Prod.fst
  | .killOp now signal res => (v.kill now signal res).map Prod.fst
  | .statusQ fs engine => (v.statusOp fs engine).map Prod.fst
  | .pidQ fs => (v.pidOp fs).map Prod.snd
  | .deleteOp _ _ => some v
  | .waitOp obs => v.waitSteps obs

/-- VM states reachable from a freshly constructed VM by any sequence
of lifecycle operations. -/
inductive Reachable : VMState → Prop where
  | base (id bundle : String) (env : List (String × String)) (mounts : List Mount)
      (terminal : Bool) : Reachable (newVMState id bundle env mounts terminal)
  | step {v v2 : VMState} (op : VMOp) : Reachable v → v.applyOp op = some v2 →
      Reachable v2

/-- Every stored domain descriptor was rendered for this VM, so its
name is the VM's id. -/
def domNameInv (v : VMState) : Prop := ∀ d, v.domain = some d → d.name = v.id

/-- A non-zero cached pid was cached through VM.Pid, which requires a
rendered domain with a non-empty name. -/
def pidCacheInv (v : VMState) : Prop := v.pid ≠ 0 → v.id ≠ "" ∧ v.domain.isSome = true

/-- The state invariant backing the pid-caching claim. -/
def VMInv (v : VMState) : Prop := domNameInv v ∧ pidCacheInv v

/-- VM.Pid only ever writes the pid field. -/
theorem pidOp_frame (v : VMState) (fs : FS) (r : Nat × VMState)
    (h : v.pidOp fs = some r) : r.2 = { v with pid := r.2.pid } := by
  cases hd : v.domain with
  | none => simp [VMState.pidOp, hd] at h
  | some d =>
    simp only [VMState.pidOp, hd] at h
    split at h
    · simp only [Option.some.injEq] at h; subst h; rw [← hd]
    · split at h
      · simp only [Option.some.injEq] at h; subst h; rw [← hd]
      · split at h
        · simp only [Option.some.injEq] at h; subst h; rw [← hd]
        · split at h
          · simp only [Option.some.injEq] at h; subst h; rw [← hd]
          · split at h
            · simp only [Option.some.injEq] at h; subst h; rw [← hd]
            · simp only [Option.some.injEq] at h; subst h; rw [← hd]

/-- A pid-cache write happens only under a stored domain with a
non-empty name. -/
theorem pidOp_cache_origin (v : VMState) (fs : FS) (r : Nat × VMState)
    (h : v.pidOp fs = some r) (hnz : r.2.pid ≠ 0) :
    v.pid ≠ 0 ∨ ∃ d, v.domain = some d ∧ d.name ≠ "" := by
  cases hd : v.domain with
  | none => simp [VMState.pidOp, hd] at h
  | some d =>
    by_cases hname : d.name = ""
    · simp only [VMState.pidOp, hd] at h
      rw [if_pos (by simpa using hname)] at h
      simp only [Option.some.injEq] at h; subst h; exact .inl hnz
    · simp only [VMState.pidOp, hd] at h
      rw [if_neg (by simpa using hname)] at h
      split at h
      · simp only [Option.some.injEq] at h; subst h; exact .inl hnz
      · split at h
        · simp only [Option.some.injEq] at h; subst h; exact .inl hnz
        · split at h
          · simp only [Option.some.injEq] at h; subst h; exact .inl hnz
          · split at h
            · simp only [Option.some.injEq] at h; subst h; exact .inl hnz
            · simp only [Option.some.injEq] at h; subst h
              exact .inr ⟨d, rfl, hname⟩

/-- With the invariant, a non-zero cached pid makes VM.Pid return the
cached value (converted as Go's `uint32`) without touching the
filesystem and without changing the state. -/
theorem pidOp_cached (v : VMState) (hinv : VMInv v) (hpid : v.pid ≠ 0) (fs : FS) :
    v.pidOp fs = some (intToUInt32 v.pid, v) := by
  obtain ⟨hdom, hp⟩ := hinv
  obtain ⟨hid, hsome⟩ := hp hpid
  obtain ⟨d, hd⟩ := Option.isSome_iff_exists.mp hsome
  have hname : d.name = v.id := hdom d hd
  simp only [VMState.pidOp, hd, hname]
  simp [hid, hpid]

/-- VM.Pid preserves the exited flag and the state invariant. -/
theorem pidOp_mono (v : VMState) (fs : FS) (r : Nat × VMState)
    (h : v.pidOp fs = some r) :
    r.2.exited = v.exited ∧ (VMInv v → VMInv r.2) := by
  have hf := pidOp_frame v fs r h
  have hex : r.2.exited = v.exited := by rw [hf]
  have hdom : r.2.domain = v.domain := by rw [hf]
  have hid : r.2.id = v.id := by rw [hf]
  refine ⟨hex, fun hv => ⟨?_, ?_⟩⟩
  · intro d hdd
    rw [hdom] at hdd
    rw [hid]
    exact hv.1 d hdd
  · intro hnz
    cases pidOp_cache_origin v fs r h hnz with
    | inl hv0 =>
      obtain ⟨hidne, hsome⟩ := hv.2 hv0
      exact ⟨by rw [hid]; exact hidne, by rw [hdom]; exact hsome⟩
    | inr hcache =>
      obtain ⟨d, hdd, hne⟩ := hcache
      have : d.name = v.id := hv.1 d hdd
      refine ⟨by rw [hid, ← this]; exact hne, ?_⟩
      rw [hdom, hdd]
      rfl

/-- VM.Status preserves the exited flag and the state invariant. -/
theorem statusOp_mono (v : VMState) (fs : FS) (g : GetStateResult)
    (r : VMState × (ProcessStatus × Option String)) (h : v.statusOp fs g = some r) :
    r.1.exited = v.exited ∧ (VMInv v → VMInv r.1) := by
  unfold VMState.statusOp at h
  split at h
  · simp only [Option.some.injEq] at h
    subst h
    exact ⟨rfl, id⟩
  · cases hp : v.pidOp fs with
    | none => rw [hp] at h; simp at h
    | some pr =>
      rw [hp] at h
      simp only [Option.some.injEq] at h
      subst h
      exact pidOp_mono v fs pr hp

/-- VM.Wait's polling loop preserves the exited flag and the state
invariant. -/
theorem waitSteps_mono (obs : List (FS × GetStateResult)) :
    ∀ (v v2 : VMState), v.waitSteps obs = some v2 →
      (v.exited = true → v2.exited = true) ∧ (VMInv v → VMInv v2) := by
  induction obs with
  | nil =>
    intro v v2 h
    simp only [VMState.waitSteps, Option.some.injEq] at h
    subst h
    exact ⟨id, id⟩
  | cons o rest ih =>
    intro v v2 h
    simp only [VMState.waitSteps] at h
    cases hs : v.statusOp o.1 o.2 with
    | none => rw [hs] at h; simp at h
    | some pr =>
      rw [hs] at h
      have h1 := statusOp_mono v o.1 o.2 pr hs
      have h2 := ih pr.1 v2 h
      exact ⟨fun he => h2.1 (by rw [h1.1]; exact he), fun hv => h2.2 (h1.2 hv)⟩

/-- VM.Init preserves the exited flag (it never becomes false from
true) and the state invariant. -/
theorem init_mono (v : VMState) (fs : FS) (u : String) (dr : LvResult) :
    (v.init fs u dr).1.exited = v.exited ∧
      (VMInv v → VMInv (v.init fs u dr).1) := by
  unfold VMState.init
  cases hs : setupRootFS v.mounts v.bundle fs with
  | error e => exact ⟨rfl, id⟩
  | ok s =>
    cases dr with
    | ok =>
      refine ⟨rfl, fun hv => ⟨?_, ?_⟩⟩
      · intro d hdd
        simp only [Option.some.injEq] at hdd
        rw [← hdd]
        rfl
      · intro hnz
        obtain ⟨hid, _⟩ := hv.2 hnz
        exact ⟨hid, rfl⟩
    | err msg nf =>
      refine ⟨rfl, fun hv => ⟨?_, ?_⟩⟩
      · intro d hdd
        simp only [Option.some.injEq] at hdd
        rw [← hdd]
        rfl
      · intro hnz
        obtain ⟨hid, _⟩ := hv.2 hnz
        exact ⟨hid, rfl⟩

/-- Every lifecycle operation preserves a set exited flag and the
state invariant. -/
theorem applyOp_mono (v : VMState) (op : VMOp) (v2 : VMState)
    (h : v.applyOp op = some v2) :
    (v.exited = true → v2.exited = true) ∧ (VMInv v → VMInv v2) := by
  cases op with
  | initOp fs u dr =>
    simp only [VMState.applyOp, Option.some.injEq] at h
    subst h
    have hm := init_mono v fs u dr
    exact ⟨fun he => by rw [hm.1]; exact he, hm.2⟩
  | startOp res =>
    simp only [VMState.applyOp] at h
    cases res with
    | ok =>
      simp only [VMState.start, Option.map, Option.some.injEq] at h
      subst h
      exact ⟨fun he => he, id⟩
    | err msg nf =>
      cases hd : v.domain with
      | none => simp [VMState.start, hd] at h
      | some d =>
        simp only [VMState.start, hd, Option.map, Option.some.injEq] at h
        subst h
        exact ⟨id, id⟩
  | killOp now sg res =>
    simp only [VMState.applyOp] at h
    cases res with
    | ok =>
      simp only [VMState.kill, Option.map, Option.some.injEq] at h
      subst h
      refine ⟨fun _ => rfl, fun hv => ⟨?_, ?_⟩⟩
      · intro d hdd
        exact hv.1 d hdd
      · intro hnz
        exact hv.2 hnz
    | err msg nf =>
      by_cases hc : (nf || containsSub "is not running" msg) = true
      · simp only [VMState.kill, hc, if_true, Option.map, Option.some.injEq] at h
        subst h
        refine ⟨fun _ => rfl, fun hv => ⟨?_, ?_⟩⟩
        · intro d hdd
          exact hv.1 d hdd
        · intro hnz
          exact hv.2 hnz
      · cases hd : v.domain with
        | none =>
          simp only [VMState.kill, hd] at h
          rw [if_neg hc] at h
          simp at h
        | some d =>
          simp only [VMState.kill, hd] at h
          rw [if_neg hc] at h
          simp only [Option.map, Option.some.injEq] at h
          subst h
          exact ⟨id, id⟩
  | statusQ fs g =>
    simp only [VMState.applyOp] at h
    cases hs : v.statusOp fs g with
    | none => rw [hs] at h; simp at h
    | some pr =>
      rw [hs] at h
      simp only [Option.map, Option.some.injEq] at h
      subst h
      have hm := statusOp_mono v fs g pr hs
      exact ⟨fun he => by rw [hm.1]; exact he, hm.2⟩
  | pidQ fs =>
    simp only [VMState.applyOp] at h
    cases hp : v.pidOp fs with
    | none => rw [hp] at h; simp at h
    | some pr =>
      rw [hp] at h
      simp only [Option.map, Option.some.injEq] at h
      subst h
      have hm := pidOp_mono v fs pr hp
      exact ⟨fun he => by rw [hm.1]; exact he, hm.2⟩
  | deleteOp undef uf =>
    simp only [VMState.applyOp, Option.some.injEq] at h
    subst h
    exact ⟨id, id⟩
  | waitOp obs =>
    simp only [VMState.applyOp] at h
    exact waitSteps_mono obs v v2 h

/-- Every reachable VM state satisfies the invariant. -/
theorem reachable_inv (v : VMState) (hr : Reachable v) : VMInv v := by
  induction hr with
  | base id bundle env mounts t =>
    constructor
    · intro d hd
      simp [newVMState] at hd
    · intro hnz
      simp [newVMState] at hnz
  | step op hv hstep ih => exact (applyOp_mono _ op _ hstep).2 ih

/-- C6: for every VM and every sequence of lifecycle operations, the
exited flag, once set, is never cleared by any later operation; and
once a non-zero process id has been cached, Pid returns the cached
value (as Go's uint32) independent of the filesystem — without
rereading or re-parsing the per-domain pid file — and leaves the
state unchanged. -/
theorem vm_exited_monotone_pid_cached (v : VMState) (hr : Reachable v) :
    (∀ (op : VMOp) (v2 : VMState), v.applyOp op = some v2 →
        v.exited = true → v2.exited = true) ∧
    (v.pid ≠ 0 → ∀ fs : FS, v.pidOp fs = some (intToUInt32 v.pid, v)) :=
  ⟨fun op v2 h => (applyOp_mono v op v2 h).1,
   fun hnz fs => pidOp_cached v (reachable_inv v hr) hnz fs⟩

/-- Concrete mount list used by the C6 witness. -/
def wMounts : List Mount := [{ type := "bind", source := ["snap"] }]

/-- Concrete filesystem view used by the C6 witness: every stat
succeeds, the boot image reports qcow2, the symlink call succeeds, the
pid file holds "42". -/
def wFS : FS :=
  { statOk := fun _ => true, qemuFormat := fun _ => some "qcow2",
    symlinkOk := true, pidFile := fun _ => some "42" }

/-- The C6 witness VM after construction, Init, a Pid query (caching
pid 42), and a successful Kill. -/
def wVM3 : VMState :=
  { newVMState "vmw" "/bw" [] wMounts false with
    domain := some (renderDomain "vmw" "/bw" "u-1"), domainDefined := true,
    pid := 42, terminal := true, exitedAt := 9, exited := true, cancelled := true }

/-- The C6 witness state is reachable: construct, Init, query Pid,
Kill. -/
theorem wVM3_reachable : Reachable wVM3 := by
  have h0 : Reachable (newVMState "vmw" "/bw" [] wMounts false) :=
    Reachable.base "vmw" "/bw" [] wMounts false
  have h1 : Reachable { newVMState "vmw" "/bw" [] wMounts false with
      domain := some (renderDomain "vmw" "/bw" "u-1"), domainDefined := true } :=
    Reachable.step (.initOp wFS "u-1" .ok) h0 (by decide)
  have h2 : Reachable { newVMState "vmw" "/bw" [] wMounts false with
      domain := some (renderDomain "vmw" "/bw" "u-1"), domainDefined := true,
      pid := 42 } :=
    Reachable.step (.pidQ wFS) h1 (by decide)
  exact Reachable.step (.killOp 9 15 .ok) h2 (by decide)

/-- Witness for C6 at a concrete input: on the reachable killed state
with cached pid 42, a further Delete leaves the exited flag set, and
Pid returns the cached 42 without touching the filesystem. -/
theorem vm_exited_monotone_pid_cached_witness :
    wVM3.exited = true ∧ wVM3.pidOp wFS = some (intToUInt32 wVM3.pid, wVM3) := by
  have h := vm_exited_monotone_pid_cached wVM3 wVM3_reachable
  exact ⟨h.1 (.deleteOp .ok false) wVM3 (by decide) (by decide),
         h.2 (by decide) wFS⟩

/-- Go's `strings.Split` with a single-character separator, on the
underlying character list: splits around every occurrence of the
separator, keeping empty segments, and yields one segment for the
empty input. -/
def goSplit (sep : Char) : List Char → List (List Char)
  | [] => [[]]
  | c :: cs =>
    if c == sep then [] :: goSplit sep cs
    else
      match goSplit sep cs with
      | [] => [[c]]
      | g :: gs => (c :: g) :: gs

/-- goSplit always yields at least one segment. -/
theorem goSplit_ne_nil (sep : Char) (l : List Char) : goSplit sep l ≠ [] := by
  cases l with
  | nil => simp [goSplit]
  | cons c cs =>
    simp only [goSplit]
    by_cases h : (c == sep) = true
    · simp [h]
    · rw [if_neg h]
      cases hg : goSplit sep cs <;> simp

/-- goSplit on a separator-free list yields that single segment. -/
theorem goSplit_no_sep (sep : Char) (l : List Char) (h : sep ∉ l) :
    goSplit sep l = [l] := by
  induction l with
  | nil => rfl
  | cons c cs ih =>
    have hc : ¬((c == sep) = true) := by
      have hne : c ≠ sep := fun hcc => h (by simp [hcc])
      simpa using hne
    simp only [goSplit]
    rw [if_neg hc, ih (fun hm => h (by simp [hm]))]

/-- goSplit around the first separator occurrence: the separator-free
prefix becomes the first segment. -/
theorem goSplit_append (sep : Char) (a b : List Char) (h : sep ∉ a) :
    goSplit sep (a ++ sep :: b) = a :: goSplit sep b := by
  induction a with
  | nil => simp [goSplit]
  | cons c cs ih =>
    have hc : ¬((c == sep) = true) := by
      have hne : c ≠ sep := fun hcc => h (by simp [hcc])
      simpa using hne
    simp only [List.cons_append, goSplit, List.append_eq]
    rw [if_neg hc, ih (fun hm => h (by simp [hm]))]

/-- One entry of the env-parsing loop in NewVM (vm.go 72-75):
`split := strings.Split(s, "="); env[split[0]] = split[1]`.  `none`
models the index-out-of-range panic on `split[1]` when the entry holds
no separator. -/
def parseEnvEntry (s : String) : Option (String × String) :=
  match goSplit '=' s.data with
  | k :: val :: _ => some (String.mk k, String.mk val)
  | _ => none

/-- Go map assignment on an association list: overwrite the existing
binding or append a new one. -/
def envInsert (m : List (String × String)) (k val : String) :
    List (String × String) :=
  if (m.lookup k).isSome then m.map (fun p => if p.1 == k then (k, val) else p)
  else m ++ [(k, val)]

/-- The env-parsing loop of NewVM over all entries; `none` = panic. -/
def parseEnvAux (acc : List (String × String)) :
    List String → Option (List (String × String))
  | [] => some acc
  | s :: rest =>
    match parseEnvEntry s with
    | none => none
    | some kv => parseEnvAux (envInsert acc kv.1 kv.2) rest

/-- The environment mapping NewVM builds from the spec's process env. -/
def parseEnv (entries : List String) : Option (List (String × String)) :=
  parseEnvAux [] entries

/-- An entry without a separator makes its parse panic. -/
theorem parseEnvEntry_none (e : String) (h : '=' ∉ e.data) :
    parseEnvEntry e = none := by
  unfold parseEnvEntry
  rw [goSplit_no_sep '=' e.data h]

/-- One panicking entry crashes the whole env-parsing loop. -/
theorem parseEnvAux_none (entries : List String) :
    ∀ (acc : List (String × String)) (e : String), e ∈ entries →
      parseEnvEntry e = none → parseEnvAux acc entries = none := by
  induction entries with
  | nil =>
    intro acc e he
    simp at he
  | cons x rest ih =>
    intro acc e he hnone
    simp only [parseEnvAux]
    cases hx : parseEnvEntry x with
    | none => rfl
    | some kv =>
      rcases List.mem_cons.mp he with rfl | hrest
      · rw [hx] at hnone
        cases hnone
      · exact ih (envInsert acc kv.1 kv.2) e hrest hnone

/-- C8 counterexample: for the entry "A=B=C" the constructed mapping
binds "A" to "B" — the text between the first and second '=' — not to
the entire text "B=C" after the first '='. -/
theorem parseEnv_first_equals_cex :
    parseEnv ["A=B=C"] = some [("A", "B")] ∧ ("B" : String) ≠ "B=C" := by
  constructor
  · decide
  · decide

/-- C8 amended: for every entry NAME=VALUE whose NAME holds no '=',
the mapping binds NAME to the first '='-separated segment of VALUE —
the text between the first and the second '=' of the entry — which is
the entire text after the first '=' only when VALUE holds no further
'='. -/
theorem parseEnvEntry_binds_first_segment (name value : String)
    (h : '=' ∉ name.data) :
    parseEnvEntry (name ++ "=" ++ value) =
      some (name, String.mk ((goSplit '=' value.data).headD [])) := by
  unfold parseEnvEntry
  have hdata : (name ++ "=" ++ value).data = name.data ++ '=' :: value.data := by
    simp
  rw [hdata, goSplit_append '=' name.data value.data h]
  cases hsp : goSplit '=' value.data with
  | nil => exact absurd hsp (goSplit_ne_nil '=' value.data)
  | cons g gs => rfl

/-- Witness for the amended C8 at a concrete input: the entry "A=B=C"
binds "A" to the first segment of "B=C". -/
theorem parseEnvEntry_binds_first_segment_witness :
    parseEnvEntry ("A" ++ "=" ++ "B=C") =
      some ("A", String.mk ((goSplit '=' ("B=C" : String).data).headD [])) :=
  parseEnvEntry_binds_first_segment "A" "B=C" (by decide)

/-- The task service's id-to-VM mapping (shim.go 57), as an
association list with Go-map insert/lookup semantics. -/
structure SvcState where
  vms : List (String × VMState)
  deriving DecidableEq, Repr

/-- Go map assignment into the id-to-VM mapping. -/
def insertVM (l : List (String × VMState)) (k : String) (v : VMState) :
    List (String × VMState) :=
  if (l.lookup k).isSome then l.map (fun p => if p.1 == k then (k, v) else p)
  else l ++ [(k, v)]

/-- Go map lookup in the id-to-VM mapping. -/
def lookupVM (l : List (String × VMState)) (k : String) : Option VMState :=
  l.lookup k

/-- Result of NewVM (vm.go 56-92): a connect failure is an error, an
env entry without '=' is an index-out-of-range panic, otherwise the
fresh VM record. -/
inductive NewVMResult where
  | crash
  | failed (msg : String)
  | ok (v : VMState)
  deriving DecidableEq, Repr

/-- NewVM (vm.go 56-92): connect to the engine (`connectOk` is the
oracle answer), then parse the spec's process environment (`specEnv` is
`none` when `spec.Process` is nil), then build the VM record. -/
def newVM (id : String) (terminal : Bool) (specEnv : Option (List String))
    (bundle : String) (mounts : List Mount) (connectOk : Bool) : NewVMResult :=
  if connectOk = false then .failed "failed to connect to libvirtd"
  else
    match specEnv with
    | none => .ok (newVMState id bundle [] mounts terminal)
    | some entries =>
      match parseEnv entries with
      | none => .crash
      | some env => .ok (newVMState id bundle env mounts terminal)

/-- The Create request fields this core consumes. -/
structure CreateReq where
  rid : String
  bundle : String
  mounts : List Mount
  terminal : Bool
  deriving DecidableEq, Repr

/-- Outcome of TaskService.Create: a Go panic, an error response (with
the service map as left behind), or the response pid with the updated
service map. -/
inductive CreateOutcome where
  | crash
  | failure (svc : SvcState)
  | ok (pid : Nat) (svc : SvcState)
  deriving DecidableEq, Repr

/-- TaskService.Create (shim.go 104-159): open the per-task log file,
read the spec, build the VM (inserting it into the map before Init),
initialize it, and answer with the VM's pid.  The map entry aliases
the VM record (a Go pointer), so Init's and Pid's mutations are
visible through the map.  `spec` is `none` when reading config.json
fails; its payload is the declared process env (`none` = nil
Process). -/
def createOp (s : SvcState) (r : CreateReq) (logOk : Bool)
    (spec : Option (Option (List String))) (connectOk : Bool)
    (fs : FS) (u : String) (defineRes : LvResult) : CreateOutcome :=
  if logOk = false then .failure s
  else
    match spec with
    | none => .failure s
    | some specEnv =>
      match newVM r.rid r.terminal specEnv r.bundle r.mounts connectOk with
      | .crash => .crash
      | .failed _ => .failure s
      | .ok v =>
        let res := v.init fs u defineRes
        match res.2 with
        | some _ => .failure { s with vms := insertVM s.vms r.rid res.1 }
        | none =>
          match res.1.pidOp fs with
          | none => .crash
          | some pr =>
            .ok pr.1 { s with vms := insertVM s.vms r.rid pr.2 }

/-- The Delete response fields (shim.go 217-221). -/
structure DeleteResponse where
  exitStatus : Nat
  exitedAt : Nat
  pid : Nat
  deriving DecidableEq, Repr

/-- TaskService.Delete (shim.go 190-222): look up the VM (unknown id
is a "process not found" error), run VM.Delete (whose error value is
always nil; a carried resource error is only logged), then build the
delete event and response from VM.Pid.  `none` models the Go panic:
VM.Pid dereferences the nil domain pointer when the VM was never
initialized. -/
def taskDelete (s : SvcState) (rid : String) (fs : FS) (undef : LvResult)
    (unlinkFails : Bool) : Option (Except String (DeleteResponse × SvcState)) :=
  match lookupVM s.vms rid with
  | none => some (.error "process not found")
  | some v =>
    let dres := v.delete undef unlinkFails
    match dres.2 with
    | some m => some (.error ("failed to delete process: " ++ m))
    | none =>
      match v.pidOp fs with
      | none => none
      | some pr =>
        some (.ok ({ exitStatus := dres.1.exitCode, exitedAt := dres.1.exitedAt,
                     pid := pr.1 },
                   { s with vms := insertVM s.vms rid pr.2 }))

/-- TaskService.Pause (shim.go 239-242): returns nil response and nil
error, touching nothing. -/
def pauseOp (s : SvcState) (rid : String) : SvcState × Option String := (s, none)

/-- TaskService.Resume (shim.go 244-247): nil, nil. -/
def resumeOp (s : SvcState) (rid : String) : SvcState × Option String := (s, none)

/-- TaskService.Checkpoint (shim.go 249-252): nil, nil. -/
def checkpointOp (s : SvcState) (rid : String) : SvcState × Option String := (s, none)

/-- TaskService.Exec (shim.go 266-269): nil, nil. -/
def execOp (s : SvcState) (rid : String) : SvcState × Option String := (s, none)

/-- TaskService.ResizePty (shim.go 271-274): nil, nil. -/
def resizePtyOp (s : SvcState) (rid : String) : SvcState × Option String := (s, none)

/-- TaskService.CloseIO (shim.go 276-279): nil, nil. -/
def closeIoOp (s : SvcState) (rid : String) : SvcState × Option String := (s, none)

/-- TaskService.Update (shim.go 281-284): nil, nil. -/
def updateOp (s : SvcState) (rid : String) : SvcState × Option String := (s, none)

/-- TaskService.Stats (shim.go 308-311): nil, nil. -/
def statsOp (s : SvcState) (rid : String) : SvcState × Option String := (s, none)

/-- C9: every unsupported task operation — Pause, Resume, Checkpoint,
Exec, ResizePty, CloseIO, Update, Stats — returns success (a nil
error) with no effect on the service state, for every request,
including requests naming an unknown task id (none of them consults
the id-to-VM map). -/
theorem unsupported_ops_noop (s : SvcState) (rid : String) :
    pauseOp s rid = (s, none) ∧ resumeOp s rid = (s, none) ∧
    checkpointOp s rid = (s, none) ∧ execOp s rid = (s, none) ∧
    resizePtyOp s rid = (s, none) ∧ closeIoOp s rid = (s, none) ∧
    updateOp s rid = (s, none) ∧ statsOp s rid = (s, none) :=
  ⟨rfl, rfl, rfl, rfl, rfl, rfl, rfl, rfl⟩

/-- Concrete filesystem view for the C3 evaluation: the pid file is
absent (it is never reached — the crash happens before any read). -/
def c3FS : FS :=
  { statOk := fun _ => true, qemuFormat := fun _ => some "qcow2",
    symlinkOk := true, pidFile := fun _ => none }

/-- C3 code evaluation at the failing input: a Delete for a task whose
VM was constructed but never initialized reaches VM.Pid with a nil
domain pointer and panics (modelled `none`), instead of returning the
non-error zero-pid response the spec requires; the panic originates in
VM.Pid itself. -/
theorem taskDelete_uninitialized_crashes :
    taskDelete { vms := [("t1", newVMState "t1" "/bundle" [] [] false)] } "t1"
        c3FS .ok false = none ∧
    (newVMState "t1" "/bundle" [] [] false).pidOp c3FS = none :=
  ⟨rfl, rfl⟩

/-- C10: constructing a VM panics whenever any entry of the declared
process environment holds no '=' character, and a Create call with
such a spec crashes instead of returning an error. -/
theorem newVM_crashes_without_equals (entries : List String) (e : String)
    (he : e ∈ entries) (heq : '=' ∉ e.data) :
    (∀ (id : String) (terminal : Bool) (bundle : String) (mounts : List Mount),
        newVM id terminal (some entries) bundle mounts true = .crash) ∧
    (∀ (s : SvcState) (r : CreateReq) (fs : FS) (u : String) (dr : LvResult),
        createOp s r true (some (some entries)) true fs u dr = .crash) := by
  have hpe : parseEnvEntry e = none := parseEnvEntry_none e heq
  have hnone : ∀ acc, parseEnvAux acc entries = none :=
    fun acc => parseEnvAux_none entries acc e he hpe
  constructor
  · intro id terminal bundle mounts
    simp [newVM, parseEnv, hnone]
  · intro s r fs u dr
    simp [createOp, newVM, parseEnv, hnone]

/-- Witness for C10 at a concrete input: the entry "FOO" (no '=')
crashes both NewVM and Create. -/
theorem newVM_crashes_without_equals_witness :
    newVM "a" false (some ["FOO"]) "/b" [] true = .crash ∧
    createOp { vms := [] } { rid := "a", bundle := "/b", mounts := [], terminal := false }
      true (some (some ["FOO"])) true c3FS "u" .ok = .crash := by
  have h := newVM_crashes_without_equals ["FOO"] "FOO" (by decide) (by decide)
  exact ⟨h.1 "a" false "/b" [],
         h.2 { vms := [] } { rid := "a", bundle := "/b", mounts := [], terminal := false }
           c3FS "u" .ok⟩

end Hvf
